import Mathlib

/-!
Verification of the `syncplify/kit` file-watching command supervisor.

The Go sources embedded here:
  * `src/guard.go` — the supervisor (`GuardContext.Do`): pattern defaulting,
    argv template rendering (`unescapeArgs`), and the debounced event loop.
  * `src/cmd/guard/main.go` — the `guard` CLI front end: `parseArgs`,
    `filterEmpty`, `argsFromConfigFile`, `genPrefix`, and the panic paths.
  * `src/pkg/exec/exec_unix.go` — the child-runner output loop of `run`.

External collaborators (Go standard library `path/filepath`, the mustache
template engine, the `radovskyb/watcher` event types) are embedded by their
documented semantics; repository helpers that live outside the provided
sources are modelled from the specification and say so in their doc comments.
Machine integers appear only in the FNV-32a hash, embedded as `Nat` with an
explicit `% 2^32`.
-/

/-! ### Event model (github.com/radovskyb/watcher)

The watcher dependency defines `Op` as a `uint32` enum (`Create` is `iota` = 0)
and `Op.String` returns the upper-case op name from its `ops` map. -/

/-- Event operation kinds of the watcher library, in declaration (`iota`) order. -/
inductive Op where
  | create
  | write
  | remove
  | rename
  | chmod
  | move
deriving DecidableEq, Repr

/-- `Op.String` of the watcher library: the upper-case names of its `ops` map. -/
def Op.goString : Op → String
  | .create => "CREATE"
  | .write => "WRITE"
  | .remove => "REMOVE"
  | .rename => "RENAME"
  | .chmod => "CHMOD"
  | .move => "MOVE"

/-- The fields of `watcher.Event` used by the supervisor. The Go zero value
`watcher.Event{}` has `Path = ""` and `Op = Op(0) = Create`. -/
structure Event where
  path : String
  op : Op
deriving DecidableEq, Repr

/-- Zero value of `watcher.Event` (substituted by `unescapeArgs` when the
triggering event is nil). -/
def Event.zero : Event := { path := "", op := Op.create }

/-! ### Mustache template rendering

Modelled from the spec: template rendering is an external collaborator
"specified only by its contract" (spec §1); each argv token is rendered through
a mustache-style template with a substitution map, and a variable missing from
the map renders as the empty string. We model the plain variable-tag fragment
(double-brace tags), which is all the supervisor's argv templates use. -/

/-- Opening brace character. -/
def lbrace : Char := Char.ofNat 123

/-- Closing brace character. -/
def rbrace : Char := Char.ofNat 125

/-- Look up a variable in the substitution map; missing variables render empty. -/
def lookupVar (ctx : List (String × String)) (name : String) : String :=
  match ctx.find? (fun p => p.1 == name) with
  | some p => p.2
  | none => ""

/-- Template scanner. The first argument is `none` while copying literal text
and `some acc` while reading a tag name (in reverse) after a double opening
brace; a double closing brace substitutes the variable. An unterminated tag is
dropped. -/
def renderLoop (ctx : List (String × String)) : Option (List Char) → List Char → List Char
  | none, [] => []
  | none, [c] => [c]
  | none, c :: c2 :: rest2 =>
    if c = lbrace ∧ c2 = lbrace then renderLoop ctx (some []) rest2
    else c :: renderLoop ctx none (c2 :: rest2)
  | some _, [] => []
  | some _, [_] => []
  | some acc, c :: c2 :: rest2 =>
    if c = rbrace ∧ c2 = rbrace then
      (lookupVar ctx (String.mk acc.reverse)).data ++ renderLoop ctx none rest2
    else renderLoop ctx (some (c :: acc)) (c2 :: rest2)

/-- `mustache.Render(template, ctx)`: substitute every double-brace variable
tag from the map. -/
def mustacheRender (template : String) (ctx : List (String × String)) : String :=
  String.mk (renderLoop ctx none template.data)

/-! ### Go `path/filepath` (Unix rules)

`unescapeArgs` calls `filepath.Abs`, `filepath.Rel` and (through them)
`filepath.Clean` and `filepath.Join`. These are embedded by the documented
semantics of the Go standard library for slash-separated paths. `Abs` resolves
a relative path against the process working directory, which is passed
explicitly as `cwd`. -/

/-- Segment pass of `filepath.Clean`: drop empty and `.` segments; `..` pops a
segment when possible, is kept when the path is relative and nothing can be
popped, and is dropped at the root of a rooted path. The accumulator holds the
kept segments in reverse. -/
def cleanCore (rooted : Bool) (segs : List String) : List String :=
  (segs.foldl
    (fun acc seg =>
      if seg = "" ∨ seg = "." then acc
      else if seg = ".." then
        match acc with
        | [] => if rooted then [] else [".."]
        | a :: rest => if a = ".." then seg :: acc else rest
      else seg :: acc)
    []).reverse

/-- `filepath.Clean` for slash-separated paths. -/
def filepathClean (p : String) : String :=
  if p = "" then "." else
  let rooted := p.startsWith "/"
  let out := String.intercalate "/" (cleanCore rooted (p.splitOn "/"))
  if rooted then "/" ++ out
  else if out = "" then "." else out

/-- `filepath.Join` of two elements: empty elements are skipped, the rest are
joined with a separator and cleaned; joining nothing yields the empty string. -/
def filepathJoin (a b : String) : String :=
  if a = "" then (if b = "" then "" else filepathClean b)
  else if b = "" then filepathClean a
  else filepathClean (a ++ "/" ++ b)

/-- `filepath.Abs`: an absolute path is cleaned, a relative one is joined to
the working directory `cwd`. -/
def filepathAbs (cwd p : String) : String :=
  if p.startsWith "/" then filepathClean p else filepathJoin cwd p

/-- Segments of a cleaned path, ignoring a leading separator; `"."` and `""`
have no segments. -/
def pathSegs (p : String) : List String :=
  let q := if p.startsWith "/" then p.drop 1 else p
  if q = "" ∨ q = "." then [] else q.splitOn "/"

/-- Drop the longest common segment run of two paths. -/
def dropCommon : List String → List String → List String × List String
  | a :: xs, b :: ys => if a = b then dropCommon xs ys else (a :: xs, b :: ys)
  | xs, ys => (xs, ys)

/-- `filepath.Rel(base, targ)`: equal cleaned paths give `"."`; mixing rooted
and relative paths is an error; otherwise go up once per base segment left
after the common prefix and then down the remaining target segments; a base
remainder that begins with `..` is an error. -/
def filepathRel (base targ : String) : Option String :=
  let b := filepathClean base
  let t := filepathClean targ
  if b = t then some "." else
  if (b.startsWith "/" && !t.startsWith "/") || (!b.startsWith "/" && t.startsWith "/")
  then none else
  let pair := dropCommon (pathSegs b) (pathSegs t)
  if pair.1.headD "" = ".." then none
  else some (String.intercalate "/" (List.replicate pair.1.length ".." ++ pair.2))

/-! ### `unescapeArgs` (src/guard.go 105-134)

A nil event is replaced with the zero `watcher.Event`. For every argv token:
the working dir and the event path are absolutized, the event path is made
relative to the working dir (`filepath.Rel` returns `""` alongside its error,
which the code only logs), and the token is rendered with the substitution map
`path -> relative path, op -> e.Op.String()`. -/

/-- The per-run argv rendering closure of `GuardContext.Do`. `cwd` is the
process working directory consulted by `filepath.Abs`; `dir` is `ctx.dir`. -/
def unescapeArgs (cwd dir : String) (args : List String) (e : Option Event) : List String :=
  let ev := e.getD Event.zero
  args.map fun arg =>
    let d := filepathAbs cwd dir
    let p := filepathAbs cwd ev.path
    let rel := (filepathRel d p).getD ""
    mustacheRender arg [("path", rel), ("op", ev.op.goString)]

/-! ### The debounced event loop (src/guard.go 203-256)

`GuardContext.Do` starts a goroutine holding `lastRun` (Go zero time). For
each event: an unmatched event is skipped; a matched event inside the debounce
window (`time.Since(lastRun) < *debounce`) is dropped but `lastRun` is still
set to `time.Now()`; otherwise `lastRun` is set to `time.Now()` and the event
is processed (`go run(&e)` after killing the previous child). Times are
embedded as naturals on a monotone wall clock, and the time observed by
`time.Now()` inside the iteration is the event's arrival time. -/

/-- One iteration of the event branch of the supervisor's select loop for an
event arriving at time `now`: returns (processed?, new `lastRun`). -/
def eventStep (d lastRun now : Nat) (matched : Bool) : Bool × Nat :=
  if !matched then (false, lastRun)
  else if now - lastRun < d then (false, now)
  else (true, now)

/-- For a matched event the step reduces to the debounce test. -/
theorem eventStep_matched (d l n : Nat) :
    eventStep d l n true = if n - l < d then (false, n) else (true, n) := by
  simp [eventStep]

/-- Number of `go run(&e)` dispatches when matched events at the given times
flow through the loop, starting from the given `lastRun`. -/
def debounceRuns (d : Nat) : Nat → List Nat → Nat
  | _, [] => 0
  | lastRun, t :: ts =>
    (if (eventStep d lastRun t true).1 then 1 else 0)
      + debounceRuns d (eventStep d lastRun t true).2 ts

/-- Unfolding of `debounceRuns` on a cons, with the step test exposed. -/
theorem debounceRuns_cons (d l t : Nat) (ts : List Nat) :
    debounceRuns d l (t :: ts)
      = (if t - l < d then 0 else 1) + debounceRuns d t ts := by
  show (if (eventStep d l t true).1 then 1 else 0)
      + debounceRuns d (eventStep d l t true).2 ts = _
  rw [eventStep_matched]
  by_cases hc : t - l < d
  · simp [hc]
  · simp [hc]

/-- Ceiling division on naturals, used to state the claimed restart bound. -/
def ceilDivNat (a b : Nat) : Nat := (a + b - 1) / b

/-- Claim C1: in the supervisor's event loop, a matched event arriving at time
`now` is processed exactly when the time elapsed since the recorded `lastRun`
is at least the debounce interval, and in either outcome (processed or
dropped) the recorded time is advanced to `now`, so a burst keeps extending
the silent window. -/
theorem guard_debounce_step_spec (d lastRun now : Nat) (_h : lastRun ≤ now) :
    ((eventStep d lastRun now true).1 = true ↔ d ≤ now - lastRun)
    ∧ (eventStep d lastRun now true).2 = now := by
  rw [eventStep_matched]
  by_cases hc : now - lastRun < d
  · rw [if_pos hc]; simp; omega
  · rw [if_neg hc]; simp; omega

/-- Witness for C1: with debounce 300, `lastRun` 100 and an event at 500 the
step processes the event and records 500. -/
theorem guard_debounce_step_spec_witness :
    (((eventStep 300 100 500 true).1 = true) ↔ 300 ≤ 500 - 100)
    ∧ (eventStep 300 100 500 true).2 = 500 :=
  guard_debounce_step_spec 300 100 500 (by decide)

/-- The last event time dominates the first under a strictly increasing chain. -/
theorem chain_le_getLastD (t : Nat) (ts : List Nat)
    (h : List.Chain (· < ·) t ts) : t ≤ ts.getLastD t := by
  induction ts generalizing t with
  | nil => exact Nat.le_refl t
  | cons x xs ih =>
    cases h with
    | cons hlt hchain =>
      have := ih x hchain
      rw [List.getLastD_cons]
      omega

/-- Core budget argument: every processed event after the first consumes a gap
of at least `d`, so `d` times the number of runs is bounded by the total span. -/
theorem debounceRuns_mul_le (d t : Nat) (ts : List Nat)
    (h : List.Chain (· < ·) t ts) :
    d * debounceRuns d t ts ≤ ts.getLastD t - t := by
  induction ts generalizing t with
  | nil => simp [debounceRuns]
  | cons x xs ih =>
    cases h with
    | cons hlt hchain =>
      have hih := ih x hchain
      have hlast := chain_le_getLastD x xs hchain
      rw [debounceRuns_cons, List.getLastD_cons]
      by_cases hc : x - t < d
      · rw [if_pos hc, Nat.zero_add]
        omega
      · rw [if_neg hc]
        have hexp : d * (1 + debounceRuns d x xs)
            = d + d * debounceRuns d x xs := by ring
        omega

/-- Claim C2 (counterexample): with debounce 1 and a single matched event at
time 5, the loop triggers one restart while the claimed bound
`⌈(t_n − t₁)/d⌉ = ⌈0/1⌉` is zero — the first event in a quiet period always
fires immediately. -/
theorem debounce_claimed_bound_fails :
    ¬ (debounceRuns 1 0 [5] ≤ ceilDivNat (5 - 5) 1) := by decide

/-- Claim C2 (amended): for matched events at strictly increasing times
`t₁ < … < t_n` and debounce `d > 0`, the number of restarts is at most
`1 + ⌊(t_n − t₁)/d⌋`: the first event may fire immediately, and each further
restart needs a gap of at least `d` since the previous event. -/
theorem debounce_restart_bound (d t : Nat) (ts : List Nat) (hd : 0 < d)
    (hchain : List.Chain (· < ·) t ts) :
    debounceRuns d 0 (t :: ts) ≤ 1 + (ts.getLastD t - t) / d := by
  rw [debounceRuns_cons]
  have hmul := debounceRuns_mul_le d t ts hchain
  have hdiv : debounceRuns d t ts ≤ (ts.getLastD t - t) / d := by
    rw [Nat.le_div_iff_mul_le hd]
    calc debounceRuns d t ts * d = d * debounceRuns d t ts := Nat.mul_comm _ _
      _ ≤ _ := hmul
  have hfirst : (if t - 0 < d then 0 else 1) ≤ 1 := by split <;> omega
  omega

/-- Witness for the amended C2: events at 3, 4, 9 with debounce 2 trigger at
most `1 + (9 − 3)/2` restarts. -/
theorem debounce_restart_bound_witness :
    debounceRuns 2 0 (3 :: [4, 9]) ≤ 1 + ([4, 9].getLastD 3 - 3) / 2 :=
  debounce_restart_bound 2 3 [4, 9] (by decide)
    (List.Chain.cons (by omega) (List.Chain.cons (by omega) List.Chain.nil))

/-! ### Template substitution on the initial run and on restarts (C3, C4) -/

/-- `filepath.Rel` of a path with itself is `"."` (both clean to the same
path, the first branch of `Rel`). -/
theorem filepathRel_self (x : String) : filepathRel x x = some "." := by
  unfold filepathRel
  simp

/-- Rendering the bare op tag substitutes exactly the op entry of the map. -/
theorem mustacheRender_op_tag (pv v : String) :
    mustacheRender "\x7b\x7bop\x7d\x7d" [("path", pv), ("op", v)] = v := by
  show String.mk (v.data ++ []) = v
  rw [List.append_nil]

/-- Claim C3 (counterexample): on the initial run (nil event) the token
`{{op}}` renders as `"CREATE"` — the zero event's `Op.String()` — not as the
empty string. -/
theorem initial_run_not_empty_subst :
    unescapeArgs "/w" "" ["\x7b\x7bop\x7d\x7d"] none ≠ [""] := by decide

/-- Claim C3 (amended): on the initial run (nil event) with no working dir set
(`ctx.dir = ""`, the CLI default), every argv token is rendered with
`{{path}}` substituted by `"."` (the current directory made relative to
itself) and `{{op}}` substituted by `"CREATE"` (the zero event's op string) —
not by empty strings. -/
theorem initial_run_renders_dot_and_create (cwd : String) (args : List String) :
    unescapeArgs cwd "" args none
      = args.map (fun a => mustacheRender a [("path", "."), ("op", "CREATE")]) := by
  simp [unescapeArgs, Event.zero, filepathRel_self, Op.goString]

/-- Claim C4 (counterexample): a restart triggered by a Write event renders
the `{{op}}` token as `"WRITE"`, not as the lowercase `"write"` the claim
states. -/
theorem restart_op_not_lowercase :
    unescapeArgs "/w" "" ["\x7b\x7bop\x7d\x7d"]
      (some { path := "/w/a.txt", op := Op.write }) ≠ ["write"] := by decide

/-- Claim C4 (amended): for every restart triggered by a filesystem event, the
`{{op}}` template variable is substituted with the event kind's name exactly
as produced by the watcher library's `Op.String()` — upper-case, e.g.
`"WRITE"` for a Write event and `"CREATE"` for a Create event. -/
theorem restart_op_substitution (cwd dir pth : String) (o : Op) :
    unescapeArgs cwd dir ["\x7b\x7bop\x7d\x7d"] (some { path := pth, op := o })
        = [o.goString]
    ∧ Op.goString Op.write = "WRITE" ∧ Op.goString Op.create = "CREATE" := by
  refine ⟨?_, rfl, rfl⟩
  simp [unescapeArgs, mustacheRender_op_tag]

/-! ### Child-runner output loop (src/pkg/exec/exec_unix.go 62-78)

`run` reads the child's PTY stream rune by rune. A `newline` flag starts
`true`; when it is set the prefix is written before the rune and the flag is
cleared; the flag is set again after writing a `'\n'`. When `ReadRune` fails
(end of stream) the loop writes `string(r)` — `r` is the zero rune at that
point — and breaks. Output is modelled as the list of written runes. -/

/-- The output loop of `run`, folding the `newline` flag over the child's
runes; the terminal zero rune of the EOF branch is included. -/
def runOutputLoop (pfx : List Char) : Bool → List Char → List Char
  | _, [] => [Char.ofNat 0]
  | nl, r :: rest =>
    (if nl then pfx else []) ++ r :: runOutputLoop pfx (decide (r = '\n')) rest

/-- Everything `run` writes to stdout for a given child output. -/
def runOutput (pfx : List Char) (cs : List Char) : List Char :=
  runOutputLoop pfx true cs

/-- Lines as Claim C5 defines them: maximal runs terminated by `'\n'`, with a
partial trailing run kept as a final line. (Stated from the claim's words, to
be compared with `runOutput`.) -/
def linesOf : List Char → List (List Char)
  | [] => []
  | c :: rest =>
    if c = '\n' then [c] :: linesOf rest
    else
      match linesOf rest with
      | [] => [[c]]
      | l :: ls => (c :: l) :: ls

/-- The claim's description of the output: every line, including a partial
trailing one, preceded by the prefix. -/
def prefixedLines (pfx : List Char) (cs : List Char) : List Char :=
  ((linesOf cs).map (fun l => pfx ++ l)).flatten

/-- Output of the loop from an arbitrary flag state: the first line gets the
prefix only when the flag is set; later lines always get it. -/
def outputFromFlag (pfx : List Char) (nl : Bool) (cs : List Char) : List Char :=
  match linesOf cs with
  | [] => []
  | l :: ls => (if nl then pfx else []) ++ l ++ ((ls.map (fun x => pfx ++ x)).flatten)

/-- With the flag set, the partial output is exactly the prefixed lines. -/
theorem outputFromFlag_true (pfx cs : List Char) :
    outputFromFlag pfx true cs = prefixedLines pfx cs := by
  unfold outputFromFlag prefixedLines
  cases h : linesOf cs with
  | nil => simp
  | cons l ls => simp

/-- Invariant of the output loop: it emits the partial output for the current
flag, then the zero rune of the EOF branch. -/
theorem runOutputLoop_spec (pfx cs : List Char) :
    ∀ nl, runOutputLoop pfx nl cs = outputFromFlag pfx nl cs ++ [Char.ofNat 0] := by
  induction cs with
  | nil => intro nl; simp [runOutputLoop, outputFromFlag, linesOf]
  | cons c rest ih =>
    intro nl
    rw [runOutputLoop, ih (decide (c = '\n'))]
    by_cases hc : c = '\n'
    · subst hc
      cases h : linesOf rest with
      | nil => simp [outputFromFlag, linesOf, h]
      | cons l ls => simp [outputFromFlag, linesOf, h]
    · cases h : linesOf rest with
      | nil => simp [outputFromFlag, linesOf, hc, h]
      | cons l ls => simp [outputFromFlag, linesOf, hc, h]

/-- Claim C5: the child-runner output loop writes the prefix immediately
before the first rune of each line (maximal runs terminated by `'\n'`), a
partial trailing line is still emitted with the prefix, and the prefix is
re-emitted exactly when the previously emitted rune was a newline; the EOF
branch additionally appends the zero rune it writes when `ReadRune` fails. -/
theorem run_prefixes_every_line (pfx cs : List Char) :
    runOutput pfx cs = prefixedLines pfx cs ++ [Char.ofNat 0] := by
  rw [runOutput, runOutputLoop_spec, outputFromFlag_true]

/-! ### Pattern defaulting (src/guard.go 43-46, 96-99) -/

/-- Modelled from the spec: `WalkGitIgnore` is the special pattern token
defined by the repository's walk package, which is not under the provided
sources; spec §3 names the token `"!g"` ("load and apply every `.gitignore`
file reachable under the root"), as does the CLI help text in main.go. -/
def WalkGitIgnore : String := "!g"

/-- `GuardDefaultPatterns` (guard.go 44-46): match all, then ignore all
gitignore rules. -/
def GuardDefaultPatterns : List String := ["**", WalkGitIgnore]

/-- Pattern defaulting at the top of `GuardContext.Do` (guard.go 97-99): a nil
or empty pattern list (both the empty list here) is replaced by the default
patterns. -/
def effectivePatterns (patterns : List String) : List String :=
  if patterns.isEmpty then GuardDefaultPatterns else patterns

/-- Claim C6: whenever Guard is invoked with no patterns supplied (nil or
empty list), the pattern set used is exactly `["**", "!g"]`. -/
theorem guard_default_pattern_set (ps : List String) (h : ps.isEmpty = true) :
    effectivePatterns ps = ["**", "!g"] := by
  unfold effectivePatterns
  rw [h]
  rfl

/-- Witness for C6 at the empty pattern list. -/
theorem guard_default_pattern_set_witness : effectivePatterns [] = ["**", "!g"] :=
  guard_default_pattern_set [] rfl

/-! ### CLI argument handling (src/cmd/guard/main.go) -/

/-- `filterEmpty` (main.go 130-138): keep exactly the non-empty strings, in
order. -/
def filterEmpty : List String → List String
  | [] => []
  | el :: rest => if el ≠ "" then el :: filterEmpty rest else filterEmpty rest

/-- No empty string survives `filterEmpty`. -/
theorem filterEmpty_mem_ne (qs : List String) : ∀ q ∈ filterEmpty qs, q ≠ "" := by
  intro q hq
  induction qs with
  | nil => simp [filterEmpty] at hq
  | cons a l ih =>
    by_cases ha : a = ""
    · simp only [filterEmpty, ha] at hq
      simp at hq
      exact ih hq
    · simp only [filterEmpty, if_pos ha] at hq
      rcases List.mem_cons.mp hq with h1 | h2
      · subst h1; exact ha
      · exact ih h2

/-- A list of only empty strings filters to nothing. -/
theorem filterEmpty_all_empty (ps : List String) (h : ∀ p ∈ ps, p = "") :
    filterEmpty ps = [] := by
  induction ps with
  | nil => rfl
  | cons a l ih =>
    have ha : a = "" := h a (by simp)
    have hrest : ∀ p ∈ l, p = "" := fun p hp => h p (by simp [hp])
    simp only [filterEmpty, ha]
    simp only [ne_eq, not_true_eq_false, if_false]
    exact ih hrest

/-- Claim C10: empty-string watch patterns supplied via the CLI are filtered
out before configuring the supervisor, and if every supplied pattern is the
empty string the supervisor falls back to the default pattern set. -/
theorem cli_empty_patterns_default (qs ps : List String) (h : ∀ p ∈ ps, p = "") :
    (∀ q ∈ filterEmpty qs, q ≠ "")
    ∧ effectivePatterns (filterEmpty ps) = GuardDefaultPatterns :=
  ⟨filterEmpty_mem_ne qs, by rw [filterEmpty_all_empty ps h]; rfl⟩

/-- Witness for C10: two empty `--watch` flags yield the default patterns. -/
theorem cli_empty_patterns_default_witness :
    (∀ q ∈ filterEmpty ["", "a"], q ≠ "")
    ∧ effectivePatterns (filterEmpty ["", ""]) = GuardDefaultPatterns :=
  cli_empty_patterns_default ["", "a"] ["", ""] (by decide)

/-- `indexOf` (main.go 150-158): index of the first occurrence of `str`,
`-1` when absent. -/
def indexOf : List String → String → Int
  | [], _ => -1
  | e :: rest, str =>
    if e = str then 0
    else
      let r := indexOf rest str
      if r = -1 then -1 else r + 1

/-- `parseArgs` (main.go 140-148): split at the first `"--"`; without a
separator the command args are nil (`none`), with one they are the (possibly
empty) remainder. -/
def parseArgs (args : List String) : List String × Option (List String) :=
  let i := indexOf args "--"
  if i = -1 then (args, none)
  else (args.take i.toNat, some (args.drop (i.toNat + 1)))

/-- Termination of a Go process: a `main` that returns normally exits with
status 0; an uncaught panic terminates the process with status 2 (Go runtime
behavior). -/
inductive GoTermination where
  | normalReturn
  | panicked (msg : String)
deriving DecidableEq, Repr

/-- Exit status of the process for each termination. -/
def GoTermination.exitCode : GoTermination → Nat
  | .normalReturn => 0
  | .panicked _ => 2

/-- Termination of the guard CLI for one config block. `genOptions` panics
with "empty command" when `parseArgs` produced nil command args (main.go
121-123); otherwise the supervisor runs and its `Do` error — invalid pattern
at startup or a fatal runtime error, passed here as `doErr` — reaches
`MustDo`, which panics on it (Modelled from the spec: the `Must…`
panic-on-error wrappers live outside the provided sources; spec §9 describes
them as panic-on-error shortcuts). A `none` error is a clean stop and `main`
returns normally. -/
def guardMain (args : List String) (doErr : Option String) : GoTermination :=
  match (parseArgs args).2 with
  | none => .panicked "empty command"
  | some _ =>
    match doErr with
    | none => .normalReturn
    | some e => .panicked e

/-- Claim C7 (counterexample): invoking the CLI with no `--` separator is the
"empty command" configuration error; the process panics and exits with status
2, not the claimed status 1. -/
theorem cli_config_error_exit_code_not_one :
    (guardMain ["echo", "hi"] none).exitCode = 2
    ∧ ¬ (guardMain ["echo", "hi"] none).exitCode = 1 := by decide

/-- Claim C7 (amended): the CLI exits 0 on a clean stop; configuration errors
(empty command, invalid pattern) and fatal runtime errors all surface as
panics, so the process exits with Go's panic status 2 in every error case —
exit status 1 is never produced. -/
theorem cli_exit_codes (args : List String) (doErr : Option String) :
    ((parseArgs args).2 = none → (guardMain args doErr).exitCode = 2)
    ∧ (∀ cmd, (parseArgs args).2 = some cmd → doErr = none →
        (guardMain args doErr).exitCode = 0)
    ∧ (∀ cmd e, (parseArgs args).2 = some cmd → doErr = some e →
        (guardMain args doErr).exitCode = 2) := by
  unfold guardMain
  refine ⟨?_, ?_, ?_⟩
  · intro h; rw [h]; rfl
  · intro cmd h hd; rw [h, hd]; rfl
  · intro cmd e h hd; rw [h, hd]; rfl

/-- Witness for the amended C7: an empty command exits 2; a clean stop exits
0; a fatal error exits 2. -/
theorem cli_exit_codes_witness :
    (guardMain ["echo"] none).exitCode = 2
    ∧ (guardMain ["a", "--", "b"] none).exitCode = 0
    ∧ (guardMain ["a", "--", "b"] (some "fatal")).exitCode = 2 :=
  ⟨(cli_exit_codes ["echo"] none).1 (by decide),
   (cli_exit_codes ["a", "--", "b"] none).2.1 ["b"] (by decide) rfl,
   (cli_exit_codes ["a", "--", "b"] (some "fatal")).2.2 ["b"] "fatal" (by decide) rfl⟩

/-! ### Output prefix generation (src/cmd/guard/main.go 173-182) -/

/-- UTF-8 encoding of a character, byte values as naturals. -/
def utf8Bytes (c : Char) : List Nat :=
  let n := c.toNat
  if n < 128 then [n]
  else if n < 2048 then [192 + n / 64, 128 + n % 64]
  else if n < 65536 then [224 + n / 4096, 128 + (n / 64) % 64, 128 + n % 64]
  else [240 + n / 262144, 128 + (n / 4096) % 64, 128 + (n / 64) % 64, 128 + n % 64]

/-- The bytes of a Go string (UTF-8). -/
def strBytes (s : String) : List Nat :=
  (s.data.map utf8Bytes).flatten

/-- FNV-32a (`hash/fnv.New32a` then `Write` then `Sum32`): offset basis
2166136261, per byte xor then multiply by the prime 16777619, truncated to 32
bits. -/
def fnv32a (bytes : List Nat) : Nat :=
  bytes.foldl (fun h b => ((h ^^^ b) * 16777619) % 4294967296) 2166136261

/-- Self-check of the hash embedding against the published FNV-1a 32-bit test
vector for the string "a" (0xE40C292C). -/
theorem fnv32a_test_vector : fnv32a (strBytes "a") = 3826002220 := by decide

/-- `genPrefix` (main.go 173-182): for the default flag value `"auto"` the
prefix is `fmt.Sprint(args[0], " | ")` — two string operands concatenate —
colored by `kit.C` with the color number `FNV-32a(strings.Join(args, "")) %
256` printed in decimal; any other flag value is returned unchanged. `kit.C`
lives outside the provided sources and is passed as the parameter `colorFn`;
`args[0]` is written `args.headD ""` (the CLI guarantees a non-empty
command). -/
def genPrefix (colorFn : String → String → String) (pfxFlag : String)
    (args : List String) : String :=
  if pfxFlag = "auto" then
    colorFn (args.headD "" ++ " | ")
      (toString (fnv32a (strBytes (String.join args)) % 256))
  else pfxFlag

/-- Claim C8: with the default `--prefix` value `"auto"`, the generated output
prefix equals `argv[0] ++ " | "` colored with the color number obtained as
the FNV-32a hash of the joined argv tokens modulo 256; for any other prefix
value the flag value is used unchanged. -/
theorem cli_gen_prefix_spec (colorFn : String → String → String)
    (pfxFlag : String) (args : List String) :
    (pfxFlag = "auto" → genPrefix colorFn pfxFlag args
        = colorFn (args.headD "" ++ " | ")
            (toString (fnv32a (strBytes (String.join args)) % 256)))
    ∧ (pfxFlag ≠ "auto" → genPrefix colorFn pfxFlag args = pfxFlag) := by
  constructor
  · intro h; unfold genPrefix; rw [if_pos h]
  · intro h; unfold genPrefix; rw [if_neg h]

/-- Witness for C8: concrete evaluations of both branches. -/
theorem cli_gen_prefix_spec_witness :
    genPrefix (fun s c => s ++ c) "auto" ["ls"]
        = ("ls" ++ " | ") ++ toString (fnv32a (strBytes (String.join ["ls"])) % 256)
    ∧ genPrefix (fun s c => s ++ c) "my" ["ls"] = "my" :=
  ⟨(cli_gen_prefix_spec (fun s c => s ++ c) "auto" ["ls"]).1 rfl,
   (cli_gen_prefix_spec (fun s c => s ++ c) "my" ["ls"]).2 (by decide)⟩

/-! ### Config-file arguments (src/cmd/guard/main.go 160-171) -/

/-- The loop guard of `argsFromConfigFile` (main.go 162): byte length above
one and first byte `'@'`; character length agrees with byte length here
because the guard also requires the one-byte first character `'@'`. -/
def isConfigArg (e : String) : Bool :=
  decide (1 < e.length ∧ e.front = '@')

/-- Newline or carriage return, the character class of the split regex. -/
def isNLChar (c : Char) : Bool := c = '\n' || c = '\r'

/-- Split on maximal runs of newline and carriage-return characters — the
`regexp.MustCompile([\n\r]+).Split(s, -1)` semantics, keeping empty leading
and trailing pieces. -/
def splitNLChars : List Char → List (List Char)
  | [] => [[]]
  | [c] => if isNLChar c then [[], []] else [[c]]
  | c :: c2 :: rest =>
    if isNLChar c then
      (if isNLChar c2 then splitNLChars (c2 :: rest) else [] :: splitNLChars (c2 :: rest))
    else
      match splitNLChars (c2 :: rest) with
      | p :: ps => (c :: p) :: ps
      | [] => [[c]]

/-- String version of the newline split. -/
def splitNL (s : String) : List String :=
  (splitNLChars s.data).map (fun l => String.mk l)

/-- The scan of `argsFromConfigFile` (main.go 160-171): the first element of
byte length above one starting with `'@'` names a file; a read failure
returns the original `args` unchanged, success returns the file split on line
breaks; other elements are skipped. `readF` is the filesystem's answer to
`kit.ReadFile` (pkg/os/fs.go), `none` for an error. -/
def argsFromConfigFileLoop (readF : String → Option String)
    (args : List String) : List String → List String
  | [] => args
  | e :: rest =>
    if isConfigArg e then
      match readF (e.drop 1) with
      | none => args
      | some f => splitNL f
    else argsFromConfigFileLoop readF args rest

/-- `argsFromConfigFile` scans the full argument slice. -/
def argsFromConfigFile (readF : String → Option String)
    (args : List String) : List String :=
  argsFromConfigFileLoop readF args args

/-- Elements that are not config-file arguments are skipped by the scan. -/
theorem argsLoop_skip (readF : String → Option String) (args : List String)
    (l rest : List String) (h : ∀ x ∈ l, isConfigArg x = false) :
    argsFromConfigFileLoop readF args (l ++ rest)
      = argsFromConfigFileLoop readF args rest := by
  induction l with
  | nil => rfl
  | cons a l2 ih =>
    have ha : isConfigArg a = false := h a (by simp)
    have h2 : ∀ x ∈ l2, isConfigArg x = false := fun x hx => h x (by simp [hx])
    simp only [List.cons_append, argsFromConfigFileLoop, ha]
    simp only [Bool.false_eq_true, if_false]
    exact ih h2

/-- Claim C9: if some argv element of length greater than one begins with
`'@'` but reading the named file fails, the original argv is returned
completely unchanged; only the first such element is ever considered (the
elements after it, config-file arguments or not, never matter); and a bare
`"@"` is never treated as a config-file argument. -/
theorem cli_config_file_arg (readF readG : String → Option String)
    (pre post : List String) (e f : String)
    (hpre : ∀ x ∈ pre, isConfigArg x = false)
    (he : isConfigArg e = true)
    (hread : readF (e.drop 1) = none)
    (hreadG : readG (e.drop 1) = some f) :
    argsFromConfigFile readF (pre ++ e :: post) = pre ++ e :: post
    ∧ argsFromConfigFile readG (pre ++ e :: post) = splitNL f
    ∧ isConfigArg "@" = false := by
  refine ⟨?_, ?_, by decide⟩
  · unfold argsFromConfigFile
    rw [argsLoop_skip readF (pre ++ e :: post) pre (e :: post) hpre]
    simp only [argsFromConfigFileLoop, he, if_true, hread]
  · unfold argsFromConfigFile
    rw [argsLoop_skip readG (pre ++ e :: post) pre (e :: post) hpre]
    simp only [argsFromConfigFileLoop, he, if_true, hreadG]

/-- Witness for C9: a failing read of `@cfg` leaves argv untouched even with a
later `@two`; a succeeding read replaces argv with the file's lines. -/
theorem cli_config_file_arg_witness :
    argsFromConfigFile (fun _ => none) (["run"] ++ "@cfg" :: ["@two"])
        = ["run"] ++ "@cfg" :: ["@two"]
    ∧ argsFromConfigFile (fun _ => some "a\nb") (["run"] ++ "@cfg" :: ["@two"])
        = splitNL "a\nb"
    ∧ isConfigArg "@" = false :=
  cli_config_file_arg (fun _ => none) (fun _ => some "a\nb") ["run"] ["@two"]
    "@cfg" "a\nb" (by decide) (by decide) rfl rfl
